import Mathlib

/-! Shallow embedding of the uniqer_api_proxy server (src/index.js): an Express
proxy that validates a Supabase bearer token and forwards requests under the
/api/ route to a fixed internal API.  JS string and object-literal operations
are modelled faithfully from the source; the express routing layer, the axios
transport layer (URL building from `url` plus `params`, default JSON response
transform) and express `res.send` are modelled to the extent the verified
claims depend on them, as documented on each definition. -/

namespace UniqerProxy

/-- Suffix of a string after dropping the first n characters, as JS slice(n). -/
def strDrop (s : String) (n : Nat) : String := String.mk (s.data.drop n)

/-- JS String.prototype.startsWith with a plain string argument. -/
def strStartsWith (s p : String) : Bool := p.data.isPrefixOf s.data

/-- JS String.prototype.toLowerCase, restricted to the ASCII strings used for
HTTP header names and paths. -/
def strToLower (s : String) : String := String.mk (s.data.map Char.toLower)

/-- Index of the first occurrence of pat in s at or after position i, if any.
Helper for the JS replace-first-occurrence semantics. -/
def firstOccAux (pat : List Char) : List Char → Nat → Option Nat
  | [], i => if pat.isPrefixOf [] then some i else none
  | c :: t, i => if pat.isPrefixOf (c :: t) then some i else firstOccAux pat t (i + 1)

/-- JS String.prototype.replace with a plain string pattern: replaces only the
first occurrence of pat in s, and returns s unchanged if pat does not occur. -/
def jsReplaceFirst (s pat rep : String) : String :=
  match firstOccAux pat.data s.data 0 with
  | none => s
  | some i => String.mk (s.data.take i ++ rep.data ++ s.data.drop (i + pat.data.length))

/-- Express req.path: the part of req.url before the query string. -/
def reqPathOf (url : String) : String := String.mk (url.data.takeWhile (fun c => c ≠ '?'))

/-- JSON values as produced by JSON.parse and consumed by JSON.stringify.
Numbers are modelled as integers: every numeric literal appearing in this
development is integral, so the floating-point corner of JS numbers is not
needed. -/
inductive Json where
  | null : Json
  | bool (b : Bool) : Json
  | num (n : Int) : Json
  | str (s : String) : Json
  | arr (elems : List Json) : Json
  | obj (fields : List (String × Json)) : Json

/-- Join a list of strings with a separator, as Array.prototype.join. -/
def joinSep (sep : String) : List String → String
  | [] => ""
  | [x] => x
  | x :: y :: t => x ++ sep ++ joinSep sep (y :: t)

/-- JSON string escaping for one character, as JSON.stringify (common cases). -/
def escapeChar (c : Char) : String :=
  if c = '"' then "\\\""
  else if c = '\\' then "\\\\"
  else if c = '\n' then "\\n"
  else if c = '\r' then "\\r"
  else if c = '\t' then "\\t"
  else String.singleton c

/-- JSON string quoting, as JSON.stringify on a string value. -/
def quoteStr (s : String) : String :=
  "\"" ++ String.join (s.data.map escapeChar) ++ "\""

mutual

/-- Compact serialization of a JSON value, as JSON.stringify with no spacing
argument (the express res.json default). -/
def stringify : Json → String
  | .null => "null"
  | .bool true => "true"
  | .bool false => "false"
  | .num n => toString n
  | .str s => quoteStr s
  | .arr xs => "[" ++ joinSep "," (stringifyList xs) ++ "]"
  | .obj fs => "\x7b" ++ joinSep "," (stringifyFields fs) ++ "\x7d"

/-- Serializations of the elements of a JSON array, in order. -/
def stringifyList : List Json → List String
  | [] => []
  | j :: t => stringify j :: stringifyList t

/-- Serializations of the key-value pairs of a JSON object, in order. -/
def stringifyFields : List (String × Json) → List String
  | [] => []
  | (k, v) :: t => (quoteStr k ++ ":" ++ stringify v) :: stringifyFields t

end

/-- Skip JSON whitespace. -/
def skipWs : List Char → List Char
  | c :: t => if c = ' ' ∨ c = '\n' ∨ c = '\t' ∨ c = '\r' then skipWs t else c :: t
  | [] => []

/-- Decode one JSON string escape character. -/
def escDecode (c : Char) : Option Char :=
  if c = '"' then some '"'
  else if c = '\\' then some '\\'
  else if c = '/' then some '/'
  else if c = 'n' then some '\n'
  else if c = 'r' then some '\r'
  else if c = 't' then some '\t'
  else none

/-- Parse the body of a JSON string after the opening quote, returning the
decoded characters and the rest of the input after the closing quote. -/
def parseStrChars : List Char → Option (List Char × List Char)
  | [] => none
  | '"' :: t => some ([], t)
  | '\\' :: c :: t =>
    match escDecode c with
    | none => none
    | some d =>
      match parseStrChars t with
      | none => none
      | some (l, r) => some (d :: l, r)
  | c :: t =>
    if c = '\\' then none
    else if c.toNat < 32 then none
    else
      match parseStrChars t with
      | none => none
      | some (l, r) => some (c :: l, r)

/-- Numeric value of a list of decimal digits. -/
def digitsToNat (l : List Char) : Nat :=
  l.foldl (fun a c => a * 10 + (c.toNat - '0'.toNat)) 0

/-- A number literal must not run into a fraction or exponent marker, which
this integral model does not represent. -/
def numBreakOk : List Char → Bool
  | c :: _ => !(c = '.' ∨ c = 'e' ∨ c = 'E')
  | [] => true

/-- Parse an unsigned integer literal, rejecting leading zeros as JSON does.
Magnitudes above 2 to the 53rd are rejected into the unmodelled zone, because
beyond that bound the JS double value and its serialization no longer match
the decimal digits. -/
def parseDigits (s : List Char) : Option (Nat × List Char) :=
  let ds := s.takeWhile Char.isDigit
  if ds.isEmpty then none
  else if 1 < ds.length ∧ ds.headD ' ' = '0' then none
  else if 9007199254740992 < digitsToNat ds then none
  else some (digitsToNat ds, s.drop ds.length)

/-- Parse a JSON number literal (integral subset). -/
def parseNum : List Char → Option (Json × List Char)
  | '-' :: t =>
    match parseDigits t with
    | none => none
    | some (n, r) => if numBreakOk r then some (.num (-(n : Int)), r) else none
  | s =>
    match parseDigits s with
    | none => none
    | some (n, r) => if numBreakOk r then some (.num (n : Int), r) else none

mutual

/-- Fuel-indexed recursive-descent parser for one JSON value, modelling
JSON.parse on the integral subset described at Json. -/
def parseVal : Nat → List Char → Option (Json × List Char)
  | 0, _ => none
  | fuel + 1, s =>
    match skipWs s with
    | [] => none
    | 'n' :: t => if "ull".data.isPrefixOf t then some (.null, t.drop 3) else none
    | 't' :: t => if "rue".data.isPrefixOf t then some (.bool true, t.drop 3) else none
    | 'f' :: t => if "alse".data.isPrefixOf t then some (.bool false, t.drop 4) else none
    | '"' :: t =>
      match parseStrChars t with
      | none => none
      | some (l, r) => some (.str (String.mk l), r)
    | '[' :: t =>
      match skipWs t with
      | ']' :: r => some (.arr [], r)
      | u =>
        match parseElems fuel u with
        | none => none
        | some (xs, r) => some (.arr xs, r)
    | '\x7b' :: t =>
      match skipWs t with
      | '\x7d' :: r => some (.obj [], r)
      | u =>
        match parseFields fuel u with
        | none => none
        | some (fs, r) => some (.obj fs, r)
    | c :: t => parseNum (c :: t)

/-- Parse the comma-separated elements of a nonempty JSON array, up to and
including the closing bracket. -/
def parseElems : Nat → List Char → Option (List Json × List Char)
  | 0, _ => none
  | fuel + 1, s =>
    match parseVal fuel s with
    | none => none
    | some (j, r) =>
      match skipWs r with
      | ',' :: r2 =>
        match parseElems fuel r2 with
        | none => none
        | some (xs, r3) => some (j :: xs, r3)
      | ']' :: r2 => some ([j], r2)
      | _ => none

/-- Parse the comma-separated fields of a nonempty JSON object, up to and
including the closing brace.  Objects with duplicate keys (which JSON.parse
resolves last-wins while keeping first position) are rejected into the
unmodelled zone. -/
def parseFields : Nat → List Char → Option (List (String × Json) × List Char)
  | 0, _ => none
  | fuel + 1, s =>
    match skipWs s with
    | '"' :: t =>
      match parseStrChars t with
      | none => none
      | some (k, r) =>
        match skipWs r with
        | ':' :: r2 =>
          match parseVal fuel r2 with
          | none => none
          | some (v, r3) =>
            match skipWs r3 with
            | ',' :: r4 =>
              match parseFields fuel r4 with
              | none => none
              | some (fs, r5) =>
                if fs.any (fun kv => kv.1 == String.mk k) then none
                else some ((String.mk k, v) :: fs, r5)
            | '\x7d' :: r4 => some ([(String.mk k, v)], r4)
            | _ => none
        | _ => none
    | _ => none

end

/-- JSON.parse on a whole string: one value with only whitespace around it.
The fuel bound exceeds the number of parser steps any input can take. -/
def jsonParse (s : String) : Option Json :=
  match parseVal (2 * s.length + 4) s.data with
  | some (j, r) => if (skipWs r).isEmpty then some j else none
  | none => none

/-- Hexadecimal digit test for JSON unicode escapes. -/
def isHex (c : Char) : Bool :=
  c.isDigit ∨ ('a' ≤ c ∧ c ≤ 'f') ∨ ('A' ≤ c ∧ c ≤ 'F')

/-- The single-character escapes of the full JSON grammar. -/
def escOkFull (c : Char) : Bool :=
  c = '"' ∨ c = '\\' ∨ c = '/' ∨ c = 'b' ∨ c = 'f' ∨ c = 'n' ∨ c = 'r' ∨ c = 't'

/-- Recognize the body of a JSON string after the opening quote, per the full
JSON grammar: every escape including unicode escapes, raw control characters
rejected.  Returns the rest of the input after the closing quote. -/
def scanStr : List Char → Option (List Char)
  | [] => none
  | '"' :: t => some t
  | '\\' :: c :: t =>
    if escOkFull c then scanStr t
    else if c = 'u' then
      match t with
      | h1 :: h2 :: h3 :: h4 :: t2 =>
        if isHex h1 ∧ isHex h2 ∧ isHex h3 ∧ isHex h4 then scanStr t2 else none
      | _ => none
    else none
  | c :: t =>
    if c = '\\' then none
    else if c.toNat < 32 then none
    else scanStr t

/-- Recognize one or more decimal digits and return the rest. -/
def scanDigits1 (s : List Char) : Option (List Char) :=
  if (s.takeWhile Char.isDigit).isEmpty then none
  else some (s.drop (s.takeWhile Char.isDigit).length)

/-- Recognize the integer part of a JSON number: a single zero or a nonzero
digit followed by digits. -/
def scanInt : List Char → Option (List Char)
  | '0' :: t => some t
  | c :: t => if c.isDigit then some (t.drop (t.takeWhile Char.isDigit).length) else none
  | [] => none

/-- Recognize an optional JSON fraction part. -/
def scanFrac : List Char → Option (List Char)
  | '.' :: t => scanDigits1 t
  | s => some s

/-- Recognize an optional JSON exponent part. -/
def scanExp : List Char → Option (List Char)
  | c :: t =>
    if c = 'e' ∨ c = 'E' then
      match t with
      | '+' :: t2 => scanDigits1 t2
      | '-' :: t2 => scanDigits1 t2
      | _ => scanDigits1 t
    else some (c :: t)
  | [] => some []

/-- Recognize a full JSON number: optional minus, integer part, optional
fraction, optional exponent. -/
def scanNum (s : List Char) : Option (List Char) :=
  let s1 := match s with | '-' :: t => t | _ => s
  match scanInt s1 with
  | none => none
  | some r1 =>
    match scanFrac r1 with
    | none => none
    | some r2 => scanExp r2

mutual

/-- Fuel-indexed recognizer for one value of the full JSON grammar, the
grammar JSON.parse decides.  Unlike parseVal it accepts every JSON text
(fractions, exponents, hugely long integers, all escapes, duplicate object
keys) but computes no value. -/
def scanVal : Nat → List Char → Option (List Char)
  | 0, _ => none
  | fuel + 1, s =>
    match skipWs s with
    | [] => none
    | 'n' :: t => if "ull".data.isPrefixOf t then some (t.drop 3) else none
    | 't' :: t => if "rue".data.isPrefixOf t then some (t.drop 3) else none
    | 'f' :: t => if "alse".data.isPrefixOf t then some (t.drop 4) else none
    | '"' :: t => scanStr t
    | '[' :: t =>
      match skipWs t with
      | ']' :: r => some r
      | u => scanElems fuel u
    | '\x7b' :: t =>
      match skipWs t with
      | '\x7d' :: r => some r
      | u => scanFields fuel u
    | c :: t => scanNum (c :: t)

/-- Recognize the elements of a nonempty JSON array up to the closing
bracket. -/
def scanElems : Nat → List Char → Option (List Char)
  | 0, _ => none
  | fuel + 1, s =>
    match scanVal fuel s with
    | none => none
    | some r =>
      match skipWs r with
      | ',' :: r2 => scanElems fuel r2
      | ']' :: r2 => some r2
      | _ => none

/-- Recognize the fields of a nonempty JSON object up to the closing brace. -/
def scanFields : Nat → List Char → Option (List Char)
  | 0, _ => none
  | fuel + 1, s =>
    match skipWs s with
    | '"' :: t =>
      match scanStr t with
      | none => none
      | some r =>
        match skipWs r with
        | ':' :: r2 =>
          match scanVal fuel r2 with
          | none => none
          | some r3 =>
            match skipWs r3 with
            | ',' :: r4 => scanFields fuel r4
            | '\x7d' :: r4 => some r4
            | _ => none
        | _ => none
    | _ => none

end

/-- Whether a string is a valid JSON text, i.e. whether JSON.parse succeeds
on it: one value of the full grammar with only whitespace around it. -/
def jsonAccepts (s : String) : Bool :=
  match scanVal (2 * s.length + 4) s.data with
  | some r => (skipWs r).isEmpty
  | none => false

/-- Whether a string is a bare JSON number literal, so that the axios
transform yields a JS number and express res.send takes its deprecated
send(status) path. -/
def jsonNumberOnly (s : String) : Bool :=
  match scanNum (skipWs s.data) with
  | some r => (skipWs r).isEmpty
  | none => false

/-- What express sends for one transformed JSON value: a string as its raw
characters, null as an empty body, any other value through res.json, i.e.
compact JSON.stringify. -/
def jsonValueSend : Json → String
  | .null => ""
  | .str s => s
  | j => stringify j

/-- Body handed to the response by res.status(s).send(response.data), where
response.data is what the default axios transform produced from the raw
downstream body: the JSON.parse result when the body is a valid JSON text,
else the raw text.  Validity is decided by jsonAccepts with the full JSON
grammar; the parsed value is computed by jsonParse on the modelled subset
(integer numbers up to 2 to the 53rd in magnitude, the escape set of
escDecode, no duplicate object keys).  A body that is valid JSON outside
that subset is re-serialized by the program through JS number formatting and
full escape decoding, which this model does not compute: the raw body is
returned there as a placeholder, and no theorem covers those bodies. -/
def expressSend (rawBody : String) : String :=
  if jsonAccepts rawBody then
    match jsonParse rawBody with
    | some j => jsonValueSend j
    | none => rawBody
  else rawBody

/-- Express setCharset on a Content-Type value: the charset parameter is set
to utf-8 before a string body is written.  Modelled for parameter-free media
type values; no theorem reads the rewritten value. -/
def setCharsetModel (t : String) : String := t ++ "; charset=utf-8"

/-- Rewriting express send applies to one copied downstream header: the
Content-Type value is run through setCharset because every relayed body is
written as a string, the Content-Length value is recomputed from the written
body, and every other header keeps its value. -/
def relayEntry (sent : String) (kv : String × String) : String × String :=
  if strToLower kv.1 = "content-type" then (kv.1, setCharsetModel kv.2)
  else if strToLower kv.1 = "content-length" then (kv.1, toString sent.utf8ByteSize)
  else kv

/-- The relayed response headers: every downstream header is copied by
setHeader, then express send rewrites Content-Type and Content-Length as in
relayEntry.  Headers express adds only when absent (ETag, X-Powered-By, a
defaulted Content-Type or Content-Length) are not modelled; the relay
theorem only reads headers the downstream response supplied. -/
def relayHeaders (hdrs : List (String × String)) (sent : String) : List (String × String) :=
  hdrs.map (relayEntry sent)


/-- True when the association list has an entry with exactly this key, as the
JS in-operator on an object. -/
def hasKey (m : List (String × String)) (k : String) : Bool :=
  m.any (fun kv => kv.1 == k)

/-- Define one property on a JS object: an existing key keeps its position and
gets the new value, a fresh key is appended, as JS property definition order. -/
def jsInsert (m : List (String × String)) (k v : String) : List (String × String) :=
  if hasKey m k then m.map (fun kv => if kv.1 = k then (k, v) else kv)
  else m ++ [(k, v)]

/-- Fold one key-value pair into a JS object under construction. -/
def insStep (m : List (String × String)) (kv : String × String) : List (String × String) :=
  jsInsert m kv.1 kv.2

/-- The JS object built by an object literal that lists or spreads the given
entries in order (spread and literal properties evaluate left to right). -/
def jsObjOf (pairs : List (String × String)) : List (String × String) :=
  pairs.foldl insStep []

/-- Header names removed before forwarding, from the filter in src/index.js
line 119. -/
def headerBlocklist : List String := ["authorization", "host", "content-length"]

/-- Incoming headers that survive the case-insensitive blocklist filter
(src/index.js lines 117-120). -/
def forwardedHeaders (reqHeaders : List (String × String)) : List (String × String) :=
  reqHeaders.filter (fun kv => !(headerBlocklist.contains (strToLower kv.1)))

/-- Resolved identity: the fields of the Supabase user record the proxy uses. -/
structure Identity where
  id : String
  email : String
deriving DecidableEq

/-- Possible results of awaiting supabase.auth.getUser(token): an error value,
a missing user, a user record, or the await itself throwing. -/
inductive ResolverOutcome where
  | err : ResolverOutcome
  | noUser : ResolverOutcome
  | ok (u : Identity) : ResolverOutcome
  | exn : ResolverOutcome
deriving DecidableEq

/-- Process configuration read from the environment at startup. -/
structure Config where
  supabaseUrl : String
  internalApiUrl : String
  internalApiKey : String
deriving DecidableEq

/-- An incoming Express request.  url is req.url (path plus raw query string),
query is req.query as parsed by express, headers is req.headers (node
lowercases incoming header names, and an object has pairwise distinct keys),
body is req.body as parsed by the express.json middleware. -/
structure Request where
  method : String
  url : String
  query : List (String × String)
  headers : List (String × String)
  body : Json

/-- Express req.path for a request. -/
def Request.path (r : Request) : String := reqPathOf r.url

/-- The argument object handed to axios by the proxy handler. -/
structure AxiosConfig where
  method : String
  url : String
  data : Json
  params : List (String × String)
  headers : List (String × String)

/-- The URL axios actually requests: its buildURL appends the serialized
params to the configured url, separated by an ampersand when the url already
contains a question mark and by a question mark otherwise.  Parameter
percent-encoding is the identity on the character sets used here. -/
def AxiosConfig.finalUrl (c : AxiosConfig) : String :=
  match c.params with
  | [] => c.url
  | _ =>
    c.url ++ (if c.url.data.contains '?' then "&" else "?") ++
      joinSep "&" (c.params.map (fun kv => kv.1 ++ "=" ++ kv.2))

/-- Result of the downstream transport: a response with any status code
(validateStatus always true and maxRedirects 0, so every received status,
redirects included, arrives here), or a transport failure with a node error
code string. -/
inductive TransportResult where
  | resp (status : Nat) (headers : List (String × String)) (rawBody : String) : TransportResult
  | fail (code : String) : TransportResult

/-- The two external collaborators: the identity provider behind
supabase.auth.getUser and the downstream service behind axios. -/
structure World where
  resolve : String → ResolverOutcome
  call : AxiosConfig → TransportResult

/-- Response returned to the original caller.  The body field models the
payload handed to res.json or res.send; the transport-level omission of
response bodies on HEAD requests happens below this model. -/
structure HttpResponse where
  status : Nat
  headers : List (String × String)
  body : String
deriving DecidableEq

/-- Placeholder for the deprecated express res.send(status) path taken when
the transformed body is a bare JSON number: the program then replaces the
response status with that number and the body with a reason phrase from the
statuses table, or fails into the catch block when node rejects the status
value.  The statuses table and node status validation are outside this
model, so this branch returns a fixed placeholder and no theorem describes
it. -/
def deprecatedSendStatusRelay : HttpResponse :=
  { status := 0, headers := [], body := "" }

/-- Observable outcome of handling one request: the response, the token handed
to the resolver if it was invoked, the attached req.user if any, and the axios
request issued downstream if any. -/
structure Outcome where
  response : HttpResponse
  resolvedToken : Option String
  user : Option Identity
  downstreamReq : Option AxiosConfig

/-- Body of a res.json error object with error and message fields. -/
def errBody (e m : String) : String :=
  stringify (.obj [("error", .str e), ("message", .str m)])

/-- The 401 response for a missing or malformed Authorization header
(src/index.js lines 50-56). -/
def outcome401Missing : Outcome :=
  { response :=
      { status := 401, headers := [],
        body := errBody "Unauthorized"
          "Missing or invalid Authorization header. Expected: Bearer <token>" },
    resolvedToken := none, user := none, downstreamReq := none }

/-- Headers injected by the proxy handler before the forwarded ones
(src/index.js lines 110-115): Content-Type, the optional internal key (the
JS truthiness test on the key is the nonempty-string test) and the user
context. -/
def baseHeaders (cfg : Config) (u : Identity) : List (String × String) :=
  [("Content-Type", "application/json")]
    ++ (if cfg.internalApiKey ≠ "" then [("X-Internal-Key", cfg.internalApiKey)] else [])
    ++ [("X-User-Id", u.id), ("X-User-Email", u.email)]

/-- The downstream header object (src/index.js lines 109-121): an object
literal listing the injected headers and then spreading the filtered incoming
headers. -/
def buildHeaders (cfg : Config) (u : Identity) (reqHeaders : List (String × String)) :
    List (String × String) :=
  jsObjOf (baseHeaders cfg u ++ forwardedHeaders reqHeaders)

/-- One case-insensitive header set, as the HTTP client applies object entries
in order. -/
def hvStep (name : String) (acc : Option String) (kv : String × String) : Option String :=
  if strToLower kv.1 = strToLower name then some kv.2 else acc

/-- Effective value the HTTP client sends for a header name: axios builds an
AxiosHeaders from the plain object by setting each entry in order, each set
matching existing names case-insensitively, so the last entry whose name
matches case-insensitively wins. -/
def headerValue (hs : List (String × String)) (name : String) : Option String :=
  hs.foldl (hvStep name) none

/-- Exact-key lookup on a JS object, as req.headers.authorization. -/
def getHeader (hs : List (String × String)) (k : String) : Option String :=
  (hs.find? (fun kv => kv.1 == k)).map (fun kv => kv.2)

/-- The apiPath computed by req.url.replace with regex caret slash api slash
optional (src/index.js line 97): the regex eats a leading /api/ if present,
else a leading /api, else nothing. -/
def apiPathOf (u : String) : String :=
  if strStartsWith u "/api/" then strDrop u 5
  else if strStartsWith u "/api" then strDrop u 4
  else u

/-- The axios argument constructed by the proxy handler (src/index.js lines
96-121). -/
def forwardConfig (cfg : Config) (u : Identity) (req : Request) : AxiosConfig :=
  { method := req.method,
    url := cfg.internalApiUrl ++ "/" ++ apiPathOf req.url,
    data := req.body,
    params := req.query,
    headers := buildHeaders cfg u req.headers }

/-- The proxy handler body after authentication (src/index.js lines 95-156):
issue the downstream request; on a response, copy every downstream header
onto the outgoing response, then relay the status and the transformed body
through express send, which rewrites Content-Type and Content-Length as in
relayHeaders; a transformed body that is a bare JSON number takes the
unmodelled deprecated send(status) branch.  Conditional request
revalidation (express turning a relay into 304 when the request carries
if-none-match or if-modified-since) is not modelled: the relay theorem
assumes those request headers are absent.  Transport failures are mapped by
node error code in the catch block. -/
def proxyHandler (cfg : Config) (w : World) (req : Request) (u : Identity) (tok : String) :
    Outcome :=
  match w.call (forwardConfig cfg u req) with
  | .resp status hdrs rawBody =>
    { response :=
        if jsonNumberOnly rawBody then deprecatedSendStatusRelay
        else
          { status := status,
            headers := relayHeaders hdrs (expressSend rawBody),
            body := expressSend rawBody },
      resolvedToken := some tok, user := some u,
      downstreamReq := some (forwardConfig cfg u req) }
  | .fail code =>
    { response :=
        if code = "ECONNREFUSED" then
          { status := 503, headers := [],
            body := errBody "Service Unavailable" "Internal API is not reachable" }
        else if code = "ETIMEDOUT" then
          { status := 504, headers := [],
            body := errBody "Gateway Timeout" "Internal API request timed out" }
        else
          { status := 500, headers := [],
            body := errBody "Internal Server Error"
              "An error occurred while proxying the request" },
      resolvedToken := some tok, user := some u,
      downstreamReq := some (forwardConfig cfg u req) }

/-- The resolver branch of verifyAuth (src/index.js lines 60-92): explicit
error, missing user, thrown exception, or success continuing into the proxy
handler with req.user attached. -/
def authResolve (cfg : Config) (w : World) (req : Request) (tok : String) : Outcome :=
  match w.resolve tok with
  | .err =>
    { response :=
        { status := 401, headers := [],
          body := errBody "Unauthorized" "Invalid or expired token" },
      resolvedToken := some tok, user := none, downstreamReq := none }
  | .noUser =>
    { response :=
        { status := 401, headers := [],
          body := errBody "Unauthorized" "User not found" },
      resolvedToken := some tok, user := none, downstreamReq := none }
  | .exn =>
    { response :=
        { status := 500, headers := [],
          body := errBody "Authentication failed" "Internal authentication error" },
      resolvedToken := some tok, user := none, downstreamReq := none }
  | .ok u => proxyHandler cfg w req u tok

/-- The verifyAuth middleware (src/index.js lines 47-92) followed by the
route handler: a missing, empty (JS-falsy) or non-Bearer Authorization header
is rejected before the resolver is consulted; otherwise the token is the
header value with the first occurrence of the Bearer prefix replaced by the
empty string. -/
def verifyAuthThen (cfg : Config) (w : World) (req : Request) : Outcome :=
  match getHeader req.headers "authorization" with
  | none => outcome401Missing
  | some a =>
    if a = "" ∨ strStartsWith a "Bearer " = false then outcome401Missing
    else authResolve cfg w req (jsReplaceFirst a "Bearer " "")

/-- Whether a path matches the express 4 route pattern /health: matching is
case-insensitive and non-strict, so one optional trailing slash is
accepted. -/
def routeMatchHealth (p : String) : Bool :=
  strToLower p == "/health" || strToLower p == "/health/"

/-- The whole server (src/index.js lines 37-175) on one request: the routes
in declaration order, matched on req.path with express 4 default routing
(case-insensitive, one optional trailing slash tolerated): the health route,
registered with app.get and therefore also serving HEAD through the
head-to-get fallback; then any method on paths matching /api/ followed by
anything (a case-insensitive prefix match); then the catch-all, which serves
the root self-description for the literal root path (an exact, case
sensitive JS comparison in the handler) and answers 404 elsewhere.  The now
argument is the timestamp the health handler reads from the clock. -/
def handle (cfg : Config) (w : World) (now : String) (req : Request) : Outcome :=
  if (req.method = "GET" ∨ req.method = "HEAD") ∧ routeMatchHealth req.path = true then
    { response :=
        { status := 200, headers := [],
          body := stringify (.obj
            [("status", .str "ok"), ("timestamp", .str now),
             ("supabase", .str cfg.supabaseUrl),
             ("internalApi", .str cfg.internalApiUrl)]) },
      resolvedToken := none, user := none, downstreamReq := none }
  else if strStartsWith (strToLower req.path) "/api/" = true then
    verifyAuthThen cfg w req
  else if req.path ≠ "/" then
    { response :=
        { status := 404, headers := [],
          body := errBody "Not Found" "Invalid endpoint. API routes should start with /api/" },
      resolvedToken := none, user := none, downstreamReq := none }
  else
    { response :=
        { status := 200, headers := [],
          body := stringify (.obj
            [("name", .str "Supabase Auth Proxy"), ("version", .str "1.0.0"),
             ("endpoints", .obj [("health", .str "/health"), ("api", .str "/api/*")])]) },
      resolvedToken := none, user := none, downstreamReq := none }

/-! Concrete fixtures used to evaluate the pipeline on closed inputs. -/

/-- A sample configuration. -/
def cfg0 : Config :=
  { supabaseUrl := "http://supa", internalApiUrl := "http://int", internalApiKey := "sek" }

/-- A sample resolved identity. -/
def u0 : Identity := { id := "u1", email := "a@b.com" }

/-- A world whose resolver accepts every token as u0 and whose downstream
returns 200 with a plain-text body. -/
def wOk : World := { resolve := fun _ => .ok u0, call := fun _ => .resp 200 [] "ok" }

/-- A world whose resolver reports an explicit error. -/
def wErr : World := { resolve := fun _ => .err, call := fun _ => .resp 200 [] "ok" }

/-- A world whose downstream transport fails with connection refused. -/
def wRefused : World := { resolve := fun _ => .ok u0, call := fun _ => .fail "ECONNREFUSED" }

/-- A world whose downstream answers 200 with a JSON array body containing an
inner space. -/
def wArr : World :=
  { resolve := fun _ => .ok u0,
    call := fun _ => .resp 200 [("content-type", "application/json")] "[1, 2]" }

/-- A plain authenticated request under the forwarding prefix. -/
def req0 : Request :=
  { method := "GET", url := "/api/users", query := [],
    headers := [("authorization", "Bearer tok")], body := .obj [] }

/-- The same request with no headers at all. -/
def reqNoAuth : Request := { req0 with headers := [] }

/-- A request that supplies its own x-user-id header. -/
def reqEvil : Request :=
  { req0 with headers := [("authorization", "Bearer t"), ("x-user-id", "evil")] }

/-- An authenticated request carrying one query parameter. -/
def reqQuery : Request := { req0 with url := "/api/users?x=1", query := [("x", "1")] }

/-- A POST to the health path. -/
def reqPostHealth : Request := { req0 with method := "POST", url := "/health", headers := [] }

/-- A GET to the health path that carries an Authorization header. -/
def reqHealth : Request := { req0 with url := "/health" }

/-- A request to an unknown path. -/
def reqNope : Request := { req0 with url := "/nope", headers := [] }

/-- A GET whose path is the health path in upper case. -/
def reqUpperHealth : Request := { req0 with url := "/HEALTH", headers := [] }

/-- A Bearer header with an empty remainder. -/
def reqBearerOnly : Request := { req0 with headers := [("authorization", "Bearer ")] }

/-! Supporting lemmas about the JS string model. -/

/-- When the pattern is a prefix of the text, the first occurrence is at the
start position. -/
theorem firstOccAux_of_isPrefixOf (pat s : List Char) (i : Nat)
    (h : pat.isPrefixOf s = true) : firstOccAux pat s i = some i := by
  cases s <;> simp [firstOccAux, h]

/-- Replacing the first occurrence of a prefix of the string by the empty
string drops exactly that prefix. -/
theorem jsReplaceFirst_eq_drop (a pat : String) (h : strStartsWith a pat = true) :
    jsReplaceFirst a pat "" = strDrop a pat.data.length := by
  have h' : pat.data.isPrefixOf a.data = true := h
  unfold jsReplaceFirst
  rw [firstOccAux_of_isPrefixOf _ _ _ h']
  simp [strDrop]

/-- A prefix of (takeWhile q l) is a prefix of l. -/
theorem isPrefixOf_of_takeWhile (q : Char → Bool) :
    ∀ (l p : List Char), p.isPrefixOf (l.takeWhile q) = true → p.isPrefixOf l = true := by
  intro l
  induction l with
  | nil => intro p h; simpa using h
  | cons a t ih =>
    intro p h
    rw [List.takeWhile_cons] at h
    by_cases hq : q a = true
    · rw [if_pos hq] at h
      cases p with
      | nil => simp [List.isPrefixOf]
      | cons b pt =>
        simp only [List.isPrefixOf, Bool.and_eq_true] at h ⊢
        exact ⟨h.1, ih pt h.2⟩
    · rw [if_neg hq] at h
      cases p with
      | nil => simp [List.isPrefixOf]
      | cons b pt => simp [List.isPrefixOf] at h

/-- A prefix of req.path is a prefix of req.url. -/
theorem startsWith_url_of_path (r : Request) (p : String)
    (h : strStartsWith (Request.path r) p = true) : strStartsWith r.url p = true := by
  have h' : p.data.isPrefixOf (r.url.data.takeWhile (fun c => c ≠ '?')) = true := h
  exact isPrefixOf_of_takeWhile _ _ _ h'

/-! Supporting lemmas about the routing layer. -/

/-- Lowercasing both sides preserves the prefix relation. -/
theorem isPrefixOf_map_toLower :
    ∀ (p s : List Char), p.isPrefixOf s = true →
      (p.map Char.toLower).isPrefixOf (s.map Char.toLower) = true := by
  intro p
  induction p with
  | nil => intro s _; simp [List.isPrefixOf]
  | cons a p2 ih =>
    intro s h
    cases s with
    | nil => simp [List.isPrefixOf] at h
    | cons b s2 =>
      simp only [List.isPrefixOf, Bool.and_eq_true, beq_iff_eq] at h
      simp only [List.map_cons, List.isPrefixOf, Bool.and_eq_true, beq_iff_eq]
      exact ⟨by rw [h.1], ih s2 h.2⟩

/-- The lowercased path keeps a lowercase prefix of the path. -/
theorem strToLower_startsWith (s p : String) (h : strStartsWith s p = true) :
    strStartsWith (strToLower s) (strToLower p) = true :=
  isPrefixOf_map_toLower p.data s.data h

/-- A path under the forwarding prefix does not match the health route. -/
theorem route_not_health (req : Request)
    (h : strStartsWith (Request.path req) "/api/" = true) :
    ¬((req.method = "GET" ∨ req.method = "HEAD")
      ∧ routeMatchHealth (Request.path req) = true) := by
  rintro ⟨-, hh⟩
  have h2 := strToLower_startsWith (Request.path req) "/api/" h
  rw [show strToLower "/api/" = "/api/" from by decide] at h2
  rw [routeMatchHealth] at hh
  simp only [Bool.or_eq_true, beq_iff_eq] at hh
  rcases hh with hh | hh
  · rw [hh] at h2
    exact absurd h2 (by decide)
  · rw [hh] at h2
    exact absurd h2 (by decide)

/-- A request whose path is under the forwarding prefix reaches the verifyAuth
middleware and the proxy route. -/
theorem handle_api (cfg : Config) (w : World) (now : String) (req : Request)
    (h : strStartsWith (Request.path req) "/api/" = true) :
    handle cfg w now req = verifyAuthThen cfg w req := by
  have hlow : strStartsWith (strToLower (Request.path req)) "/api/" = true := by
    have h2 := strToLower_startsWith (Request.path req) "/api/" h
    rw [show strToLower "/api/" = "/api/" from by decide] at h2
    exact h2
  unfold handle
  rw [if_neg (route_not_health req h), if_pos hlow]

/-- With no authorization entry the middleware rejects immediately. -/
theorem verify_none (cfg : Config) (w : World) (req : Request)
    (h : getHeader req.headers "authorization" = none) :
    verifyAuthThen cfg w req = outcome401Missing := by
  simp [verifyAuthThen, h]

/-- With an authorization value that does not start with the Bearer prefix the
middleware rejects immediately. -/
theorem verify_notBearer (cfg : Config) (w : World) (req : Request) (a : String)
    (h : getHeader req.headers "authorization" = some a)
    (hb : strStartsWith a "Bearer " = false) :
    verifyAuthThen cfg w req = outcome401Missing := by
  simp only [verifyAuthThen, h]
  rw [if_pos (Or.inr hb)]

/-- With a Bearer authorization value the middleware resolves the remainder of
the header value. -/
theorem verify_bearer (cfg : Config) (w : World) (req : Request) (a : String)
    (h : getHeader req.headers "authorization" = some a)
    (hb : strStartsWith a "Bearer " = true) :
    verifyAuthThen cfg w req = authResolve cfg w req (jsReplaceFirst a "Bearer " "") := by
  simp only [verifyAuthThen, h]
  rw [if_neg]
  rintro (h1 | h2)
  · rw [h1] at hb
    exact absurd hb (by decide)
  · rw [hb] at h2
    cases h2

/-! Supporting lemmas about the header object and its transmission. -/

/-- Folding entries none of which match the name leaves the accumulator. -/
theorem foldl_hvStep_skip (name : String) :
    ∀ (l : List (String × String)) (init : Option String),
      (∀ kv ∈ l, strToLower kv.1 ≠ strToLower name) → l.foldl (hvStep name) init = init := by
  intro l
  induction l with
  | nil => intro init _; rfl
  | cons hd tl ih =>
    intro init h
    rw [List.foldl_cons]
    rw [show hvStep name init hd = init from if_neg (h hd (List.mem_cons_self hd tl))]
    exact ih init (fun kv hk => h kv (List.mem_cons_of_mem hd hk))

/-- Folding entries whose every match carries value v keeps the value v. -/
theorem foldl_hvStep_keep (name v : String) :
    ∀ (l : List (String × String)),
      (∀ kv ∈ l, strToLower kv.1 = strToLower name → kv.2 = v) →
      l.foldl (hvStep name) (some v) = some v := by
  intro l
  induction l with
  | nil => intro _; rfl
  | cons hd tl ih =>
    intro h
    rw [List.foldl_cons]
    have hrest := fun kv hk => h kv (List.mem_cons_of_mem hd hk)
    by_cases hm : strToLower hd.1 = strToLower name
    · rw [show hvStep name (some v) hd = some hd.2 from if_pos hm,
        h hd (List.mem_cons_self hd tl) hm]
      exact ih hrest
    · rw [show hvStep name (some v) hd = some v from if_neg hm]
      exact ih hrest

/-- When exactly one entry matches the name, the fold yields its value,
whatever the accumulator started as. -/
theorem foldl_hvStep_unique (name k v : String) (hkn : strToLower k = strToLower name) :
    ∀ (l : List (String × String)) (init : Option String),
      (k, v) ∈ l → (∀ kv ∈ l, strToLower kv.1 = strToLower name → kv = (k, v)) →
      l.foldl (hvStep name) init = some v := by
  intro l
  induction l with
  | nil => intro init hm _; cases hm
  | cons hd tl ih =>
    intro init hm huniq
    rw [List.foldl_cons]
    have hrest := fun kv hk h2 => huniq kv (List.mem_cons_of_mem hd hk) h2
    by_cases hmatch : strToLower hd.1 = strToLower name
    · have hhd : hd = (k, v) := huniq hd (List.mem_cons_self hd tl) hmatch
      rw [show hvStep name init hd = some hd.2 from if_pos hmatch, hhd]
      exact foldl_hvStep_keep name v tl
        (fun kv hk h2 => by rw [hrest kv hk h2])
    · rw [show hvStep name init hd = init from if_neg hmatch]
      have hm' : (k, v) ∈ tl := by
        rcases List.mem_cons.mp hm with he | ht
        · rw [← he] at hmatch
          exact absurd hkn hmatch
        · exact ht
      exact ih init hm' hrest

/-- In a list with pairwise distinct keys, entries with equal keys are equal. -/
theorem keys_nodup_eq :
    ∀ (l : List (String × String)), (l.map Prod.fst).Nodup →
      ∀ a b : String × String, a ∈ l → b ∈ l → a.1 = b.1 → a = b := by
  intro l
  induction l with
  | nil => intro _ a b ha; cases ha
  | cons hd tl ih =>
    intro h a b ha hb hk
    rw [List.map_cons, List.nodup_cons] at h
    rcases List.mem_cons.mp ha with hae | hat
    · rcases List.mem_cons.mp hb with hbe | hbt
      · rw [hae, hbe]
      · exfalso
        apply h.1
        rw [hae] at hk
        rw [hk]
        exact List.mem_map_of_mem Prod.fst hbt
    · rcases List.mem_cons.mp hb with hbe | hbt
      · exfalso
        apply h.1
        rw [hbe] at hk
        rw [← hk]
        exact List.mem_map_of_mem Prod.fst hat
      · exact ih h.2 a b hat hbt hk

/-- A key held by no entry is not in the object. -/
theorem hasKey_false_of (m : List (String × String)) (k : String)
    (h : ∀ kv ∈ m, kv.1 ≠ k) : hasKey m k = false := by
  rw [hasKey, List.any_eq_false]
  intro kv hkv
  simpa using h kv hkv

/-- Defining a fresh key appends the pair. -/
theorem jsInsert_fresh (m : List (String × String)) (k v : String)
    (h : ∀ kv ∈ m, kv.1 ≠ k) : jsInsert m k v = m ++ [(k, v)] := by
  rw [jsInsert, hasKey_false_of m k h]
  simp

/-- When all remaining keys are fresh with respect to the accumulated object,
building the object just appends the remaining pairs. -/
theorem foldl_insStep_append :
    ∀ (l : List (String × String)) (acc : List (String × String)),
      ((acc ++ l).map Prod.fst).Nodup → l.foldl insStep acc = acc ++ l := by
  intro l
  induction l with
  | nil => intro acc _; simp
  | cons hd tl ih =>
    intro acc h
    have hdisj : (acc.map Prod.fst).Disjoint ((hd :: tl).map Prod.fst) := by
      rw [List.map_append, List.nodup_append] at h
      exact h.2.2
    have hfresh : ∀ kv ∈ acc, kv.1 ≠ hd.1 := by
      intro kv hkv he
      exact hdisj (List.mem_map_of_mem Prod.fst hkv)
        (by rw [he]; exact List.mem_map_of_mem Prod.fst (List.mem_cons_self hd tl))
    rw [List.foldl_cons]
    rw [show insStep acc hd = acc ++ [hd] by
      rw [insStep, jsInsert_fresh acc hd.1 hd.2 hfresh]]
    rw [ih (acc ++ [hd]) (by simpa using h)]
    simp

/-- With lowercase, pairwise-distinct incoming header names, the downstream
header object is the injected headers followed by the surviving incoming
headers. -/
theorem buildHeaders_eq (cfg : Config) (u : Identity) (hs : List (String × String))
    (hlow : ∀ kv ∈ hs, strToLower kv.1 = kv.1)
    (hnodup : (hs.map Prod.fst).Nodup) :
    buildHeaders cfg u hs = baseHeaders cfg u ++ forwardedHeaders hs := by
  have hbase : ((baseHeaders cfg u).map Prod.fst).Nodup := by
    by_cases hk : cfg.internalApiKey = "" <;> simp [baseHeaders, hk]
  have hfwdsub : List.Sublist ((forwardedHeaders hs).map Prod.fst) (hs.map Prod.fst) :=
    List.Sublist.map Prod.fst (List.filter_sublist hs)
  have hfwd : ((forwardedHeaders hs).map Prod.fst).Nodup := hnodup.sublist hfwdsub
  have hdisj : ((baseHeaders cfg u).map Prod.fst).Disjoint
      ((forwardedHeaders hs).map Prod.fst) := by
    intro x hxb hxf
    rcases List.mem_map.mp hxf with ⟨kv, hkv, hxe⟩
    have hkvhs : kv ∈ hs := List.mem_of_mem_filter hkv
    have hxlow : strToLower x = x := by rw [← hxe]; exact hlow kv hkvhs
    revert hxlow
    by_cases hk : cfg.internalApiKey = "" <;>
      simp [baseHeaders, hk] at hxb <;>
      rcases hxb with rfl | rfl | rfl | rfl <;> decide
  have hall : (((baseHeaders cfg u ++ forwardedHeaders hs)).map Prod.fst).Nodup := by
    rw [List.map_append, List.nodup_append]
    exact ⟨hbase, hfwd, hdisj⟩
  rw [buildHeaders, jsObjOf]
  rw [foldl_insStep_append (baseHeaders cfg u ++ forwardedHeaders hs) [] (by simpa using hall)]
  simp

/-! Supporting lemmas about header lookup on the express request object. -/

/-- A successful exact-key lookup exhibits a member pair. -/
theorem getHeader_eq_some_mem (hs : List (String × String)) (k v : String)
    (h : getHeader hs k = some v) : (k, v) ∈ hs := by
  rw [getHeader] at h
  rcases Option.map_eq_some'.mp h with ⟨kv, hfind, hv2⟩
  have hk : kv.1 = k := by simpa using List.find?_some hfind
  have hmem : kv ∈ hs := List.mem_of_find?_eq_some hfind
  have : (k, v) = kv := by
    rw [← hk, ← hv2]
  rw [this]
  exact hmem

/-- A failed exact-key lookup means no entry has that key. -/
theorem getHeader_none_not_mem (hs : List (String × String)) (k : String)
    (h : getHeader hs k = none) : ∀ kv ∈ hs, kv.1 ≠ k := by
  rw [getHeader, Option.map_eq_none'] at h
  intro kv hkv
  have := List.find?_eq_none.mp h kv hkv
  simpa using this

/-- Every entry of the injected header list is one of the four known pairs. -/
theorem mem_base_cases (cfg : Config) (u : Identity) (kv : String × String)
    (h : kv ∈ baseHeaders cfg u) :
    kv = ("Content-Type", "application/json") ∨ kv = ("X-Internal-Key", cfg.internalApiKey)
    ∨ kv = ("X-User-Id", u.id) ∨ kv = ("X-User-Email", u.email) := by
  by_cases hk : cfg.internalApiKey = "" <;> simp [baseHeaders, hk] at h <;> tauto

/-- Entries surviving the blocklist filter come from the request and their
lowercased name is outside the blocklist. -/
theorem mem_forwarded (hs : List (String × String)) (kv : String × String)
    (h : kv ∈ forwardedHeaders hs) :
    kv ∈ hs ∧ headerBlocklist.contains (strToLower kv.1) = false := by
  have h' := List.mem_filter.mp h
  exact ⟨h'.1, by simpa using h'.2⟩

/-! Pipeline helper lemmas: what the handler does once the resolver accepts. -/

/-- A resolved request under the forwarding prefix issues exactly the
constructed axios request, attaches the user and records the token. -/
theorem handle_forwards (cfg : Config) (w : World) (now : String) (req : Request)
    (a : String) (u : Identity)
    (hpath : strStartsWith (Request.path req) "/api/" = true)
    (hauth : getHeader req.headers "authorization" = some a)
    (hb : strStartsWith a "Bearer " = true)
    (hres : w.resolve (jsReplaceFirst a "Bearer " "") = .ok u) :
    (handle cfg w now req).downstreamReq = some (forwardConfig cfg u req)
    ∧ (handle cfg w now req).user = some u
    ∧ (handle cfg w now req).resolvedToken = some (jsReplaceFirst a "Bearer " "") := by
  rw [handle_api cfg w now req hpath, verify_bearer cfg w req a hauth hb]
  simp only [authResolve, hres]
  cases hc : w.call (forwardConfig cfg u req) <;> simp [proxyHandler, hc]

/-- A resolved request whose downstream call yields a response whose body is
not a bare JSON number relays the status, the rewritten headers and the
transformed body through the axios and express layers. -/
theorem handle_resp (cfg : Config) (w : World) (now : String) (req : Request)
    (a : String) (u : Identity) (s : Nat) (hs : List (String × String)) (b : String)
    (hpath : strStartsWith (Request.path req) "/api/" = true)
    (hauth : getHeader req.headers "authorization" = some a)
    (hb : strStartsWith a "Bearer " = true)
    (hres : w.resolve (jsReplaceFirst a "Bearer " "") = .ok u)
    (hnum : jsonNumberOnly b = false)
    (hc : w.call (forwardConfig cfg u req) = .resp s hs b) :
    (handle cfg w now req).response =
      { status := s, headers := relayHeaders hs (expressSend b), body := expressSend b } := by
  rw [handle_api cfg w now req hpath, verify_bearer cfg w req a hauth hb]
  simp only [authResolve, hres]
  simp [proxyHandler, hc, hnum]

/-- A resolved request whose downstream call fails at the transport level is
answered by the catch block according to the node error code. -/
theorem handle_fail (cfg : Config) (w : World) (now : String) (req : Request)
    (a : String) (u : Identity) (code : String)
    (hpath : strStartsWith (Request.path req) "/api/" = true)
    (hauth : getHeader req.headers "authorization" = some a)
    (hb : strStartsWith a "Bearer " = true)
    (hres : w.resolve (jsReplaceFirst a "Bearer " "") = .ok u)
    (hc : w.call (forwardConfig cfg u req) = .fail code) :
    (handle cfg w now req).response =
      (if code = "ECONNREFUSED" then
        { status := 503, headers := [],
          body := errBody "Service Unavailable" "Internal API is not reachable" }
      else if code = "ETIMEDOUT" then
        { status := 504, headers := [],
          body := errBody "Gateway Timeout" "Internal API request timed out" }
      else
        { status := 500, headers := [],
          body := errBody "Internal Server Error"
            "An error occurred while proxying the request" }) := by
  rw [handle_api cfg w now req hpath, verify_bearer cfg w req a hauth hb]
  simp only [authResolve, hres]
  simp [proxyHandler, hc]

/-- The send rewrite of one copied header does not disturb a lookup for a
name other than Content-Type and Content-Length. -/
theorem hvStep_relayEntry (n sent : String)
    (h1 : strToLower n ≠ "content-type") (h2 : strToLower n ≠ "content-length")
    (acc : Option String) (kv : String × String) :
    hvStep n acc (relayEntry sent kv) = hvStep n acc kv := by
  rw [relayEntry]
  by_cases hct : strToLower kv.1 = "content-type"
  · rw [if_pos hct]
    by_cases hm : strToLower kv.1 = strToLower n
    · exact absurd (hm.symm.trans hct) h1
    · simp only [hvStep]
      rw [if_neg hm, if_neg hm]
  · rw [if_neg hct]
    by_cases hcl : strToLower kv.1 = "content-length"
    · rw [if_pos hcl]
      by_cases hm : strToLower kv.1 = strToLower n
      · exact absurd (hm.symm.trans hcl) h2
      · simp only [hvStep]
        rw [if_neg hm, if_neg hm]
    · rw [if_neg hcl]

/-- Folding the rewritten headers equals folding the originals, for a name
other than Content-Type and Content-Length. -/
theorem foldl_hvStep_relay (n sent : String)
    (h1 : strToLower n ≠ "content-type") (h2 : strToLower n ≠ "content-length") :
    ∀ (l : List (String × String)) (init : Option String),
      List.foldl (hvStep n) init (l.map (relayEntry sent)) = List.foldl (hvStep n) init l := by
  intro l
  induction l with
  | nil => intro _; rfl
  | cons hd tl ih =>
    intro init
    rw [List.map_cons, List.foldl_cons, List.foldl_cons,
      hvStep_relayEntry n sent h1 h2 init hd]
    exact ih (hvStep n init hd)

/-- The send rewrites leave the effective value of every header name other
than Content-Type and Content-Length unchanged. -/
theorem headerValue_relayHeaders (hdrs : List (String × String)) (sent n : String)
    (h1 : strToLower n ≠ "content-type") (h2 : strToLower n ≠ "content-length") :
    headerValue (relayHeaders hdrs sent) n = headerValue hdrs n := by
  rw [headerValue, headerValue, relayHeaders]
  exact foldl_hvStep_relay n sent h1 h2 hdrs none


/-- C1 (amended): for every request to the forwarding prefix whose bearer
token resolves to an identity, the proxy issues the constructed downstream
request; that request never carries an authorization header, for every
incoming header mapping; and whenever the incoming mapping (whose keys the
HTTP layer delivers lowercased and pairwise distinct) contains no x-user-id
or x-user-email entry, the downstream request carries X-User-Id equal to the
resolved id and X-User-Email equal to the resolved email.  When the caller
supplies its own x-user-id or x-user-email header, the caller value wins
instead, because the incoming headers are spread after the injected ones. -/
theorem c1_theorem (cfg : Config) (w : World) (now : String) (req : Request)
    (a : String) (u : Identity)
    (hpath : strStartsWith (Request.path req) "/api/" = true)
    (hauth : getHeader req.headers "authorization" = some a)
    (hb : strStartsWith a "Bearer " = true)
    (hres : w.resolve (jsReplaceFirst a "Bearer " "") = ResolverOutcome.ok u)
    (hlow : ∀ kv ∈ req.headers, strToLower kv.1 = kv.1)
    (hnodup : (req.headers.map Prod.fst).Nodup) :
    (handle cfg w now req).downstreamReq = some (forwardConfig cfg u req)
    ∧ headerValue (forwardConfig cfg u req).headers "authorization" = none
    ∧ (getHeader req.headers "x-user-id" = none →
        headerValue (forwardConfig cfg u req).headers "x-user-id" = some u.id)
    ∧ (getHeader req.headers "x-user-email" = none →
        headerValue (forwardConfig cfg u req).headers "x-user-email" = some u.email) := by
  have hB : (forwardConfig cfg u req).headers
      = baseHeaders cfg u ++ forwardedHeaders req.headers :=
    buildHeaders_eq cfg u req.headers hlow hnodup
  refine ⟨(handle_forwards cfg w now req a u hpath hauth hb hres).1, ?_, ?_, ?_⟩
  · rw [hB, headerValue]
    apply foldl_hvStep_skip
    intro kv hkv
    rcases List.mem_append.mp hkv with hbm | hfm
    · rcases mem_base_cases cfg u kv hbm with rfl | rfl | rfl | rfl
      · exact (by decide : strToLower "Content-Type" ≠ strToLower "authorization")
      · exact (by decide : strToLower "X-Internal-Key" ≠ strToLower "authorization")
      · exact (by decide : strToLower "X-User-Id" ≠ strToLower "authorization")
      · exact (by decide : strToLower "X-User-Email" ≠ strToLower "authorization")
    · obtain ⟨hmem, hcontains⟩ := mem_forwarded req.headers kv hfm
      intro he
      have he' : strToLower kv.1 = "authorization" := by rw [he]; decide
      rw [he'] at hcontains
      exact absurd hcontains (by decide)
  · intro hid
    rw [hB, headerValue]
    apply foldl_hvStep_unique "x-user-id" "X-User-Id" u.id (by decide)
    · refine List.mem_append.mpr (Or.inl ?_)
      by_cases hk : cfg.internalApiKey = "" <;> simp [baseHeaders, hk]
    · intro kv hkv hm
      rcases List.mem_append.mp hkv with hbm | hfm
      · rcases mem_base_cases cfg u kv hbm with rfl | rfl | rfl | rfl
        · exact absurd hm (by decide : ¬(strToLower "Content-Type" = strToLower "x-user-id"))
        · exact absurd hm (by decide : ¬(strToLower "X-Internal-Key" = strToLower "x-user-id"))
        · rfl
        · exact absurd hm (by decide : ¬(strToLower "X-User-Email" = strToLower "x-user-id"))
      · obtain ⟨hmem, -⟩ := mem_forwarded req.headers kv hfm
        have h2 : kv.1 = "x-user-id" := by
          rw [← hlow kv hmem, hm]; decide
        exact absurd h2 (getHeader_none_not_mem req.headers "x-user-id" hid kv hmem)
  · intro hem
    rw [hB, headerValue]
    apply foldl_hvStep_unique "x-user-email" "X-User-Email" u.email (by decide)
    · refine List.mem_append.mpr (Or.inl ?_)
      by_cases hk : cfg.internalApiKey = "" <;> simp [baseHeaders, hk]
    · intro kv hkv hm
      rcases List.mem_append.mp hkv with hbm | hfm
      · rcases mem_base_cases cfg u kv hbm with rfl | rfl | rfl | rfl
        · exact absurd hm (by decide : ¬(strToLower "Content-Type" = strToLower "x-user-email"))
        · exact absurd hm
            (by decide : ¬(strToLower "X-Internal-Key" = strToLower "x-user-email"))
        · exact absurd hm (by decide : ¬(strToLower "X-User-Id" = strToLower "x-user-email"))
        · rfl
      · obtain ⟨hmem, -⟩ := mem_forwarded req.headers kv hfm
        have h2 : kv.1 = "x-user-email" := by
          rw [← hlow kv hmem, hm]; decide
        exact absurd h2 (getHeader_none_not_mem req.headers "x-user-email" hem kv hmem)

/-- C1 witness: on a concrete authenticated request with no caller-supplied
identity headers, the downstream request carries the resolved id and no
authorization header. -/
theorem c1_witness :
    headerValue (forwardConfig cfg0 u0 req0).headers "x-user-id" = some "u1"
    ∧ headerValue (forwardConfig cfg0 u0 req0).headers "authorization" = none := by
  have h := c1_theorem cfg0 wOk "t0" req0 "Bearer tok" u0 (by decide) (by decide)
    (by decide) rfl (by decide) (by decide)
  exact ⟨h.2.2.1 (by decide), h.2.1⟩

/-- C1 counterexample: a caller-supplied x-user-id header reaches the
downstream service in place of the resolved id u1, so the downstream request
does not carry X-User-Id equal to the identity id. -/
theorem c1_counterexample :
    ((handle cfg0 wOk "t0" reqEvil).downstreamReq.map
      (fun c => headerValue c.headers "x-user-id")) = some (some "evil")
    ∧ some (some "evil") ≠ some (some u0.id) := by
  refine ⟨?_, ?_⟩ <;> decide

/-- C2 (confirmed): incoming headers that survive the blocklist are merged
after the injected headers and take precedence: when the caller supplies an
x-user-id, x-user-email, x-internal-key or content-type header, the value the
downstream request carries for that name is the caller value. -/
theorem c2_theorem (cfg : Config) (w : World) (now : String) (req : Request)
    (a : String) (u : Identity) (k v : String)
    (hpath : strStartsWith (Request.path req) "/api/" = true)
    (hauth : getHeader req.headers "authorization" = some a)
    (hb : strStartsWith a "Bearer " = true)
    (hres : w.resolve (jsReplaceFirst a "Bearer " "") = ResolverOutcome.ok u)
    (hlow : ∀ kv ∈ req.headers, strToLower kv.1 = kv.1)
    (hnodup : (req.headers.map Prod.fst).Nodup)
    (hk : k ∈ (["x-user-id", "x-user-email", "x-internal-key", "content-type"] : List String))
    (hget : getHeader req.headers k = some v) :
    (handle cfg w now req).downstreamReq = some (forwardConfig cfg u req)
    ∧ headerValue (forwardConfig cfg u req).headers k = some v := by
  have hB : (forwardConfig cfg u req).headers
      = baseHeaders cfg u ++ forwardedHeaders req.headers :=
    buildHeaders_eq cfg u req.headers hlow hnodup
  have hkprops : strToLower k = k ∧ headerBlocklist.contains k = false := by
    simp at hk
    rcases hk with rfl | rfl | rfl | rfl <;> exact ⟨by decide, by decide⟩
  have hmemhs : (k, v) ∈ req.headers := getHeader_eq_some_mem req.headers k v hget
  have hmemfwd : (k, v) ∈ forwardedHeaders req.headers := by
    apply List.mem_filter.mpr
    refine ⟨hmemhs, ?_⟩
    show (!(headerBlocklist.contains (strToLower (k, v).1))) = true
    rw [show strToLower (k, v).1 = k from hkprops.1, hkprops.2]
    rfl
  refine ⟨(handle_forwards cfg w now req a u hpath hauth hb hres).1, ?_⟩
  rw [hB, headerValue, List.foldl_append]
  apply foldl_hvStep_unique k k v rfl
  · exact hmemfwd
  · intro kv hkv hm
    have hmem' := (mem_forwarded req.headers kv hkv).1
    have h1 : kv.1 = k := by
      rw [← hlow kv hmem', hm]
      exact hkprops.1
    exact keys_nodup_eq req.headers hnodup kv (k, v) hmem' hmemhs h1

/-- C2 witness: a concrete caller-supplied x-user-id value evil is what the
downstream request carries for x-user-id, not the resolved id. -/
theorem c2_witness :
    (handle cfg0 wOk "t0" reqEvil).downstreamReq = some (forwardConfig cfg0 u0 reqEvil)
    ∧ headerValue (forwardConfig cfg0 u0 reqEvil).headers "x-user-id" = some "evil" :=
  c2_theorem cfg0 wOk "t0" reqEvil "Bearer t" u0 "x-user-id" "evil" (by decide) (by decide)
    (by decide) rfl (by decide) (by decide) (by decide) (by decide)

/-- C3 (confirmed): a request under the forwarding prefix whose header mapping
has no authorization entry, or whose authorization value does not start with
the Bearer prefix, is answered exactly 401 with the fixed JSON body, and
neither the resolver nor the downstream service is contacted. -/
theorem c3_theorem (cfg : Config) (w : World) (now : String) (req : Request)
    (hpath : strStartsWith (Request.path req) "/api/" = true) :
    (getHeader req.headers "authorization" = none →
      handle cfg w now req = outcome401Missing)
    ∧ (∀ a, getHeader req.headers "authorization" = some a →
        strStartsWith a "Bearer " = false →
        handle cfg w now req = outcome401Missing)
    ∧ outcome401Missing.response.status = 401
    ∧ outcome401Missing.response.body =
        "\x7b\"error\":\"Unauthorized\",\"message\":\"Missing or invalid Authorization header. Expected: Bearer <token>\"\x7d"
    ∧ outcome401Missing.resolvedToken = none
    ∧ outcome401Missing.downstreamReq = none := by
  refine ⟨?_, ?_, rfl, rfl, rfl, rfl⟩
  · intro h
    rw [handle_api cfg w now req hpath, verify_none cfg w req h]
  · intro a h hb
    rw [handle_api cfg w now req hpath, verify_notBearer cfg w req a h hb]

/-- C3 witness: the concrete request GET /api/users with no headers is
answered by the fixed 401 outcome. -/
theorem c3_witness : handle cfg0 wOk "t0" reqNoAuth = outcome401Missing :=
  (c3_theorem cfg0 wOk "t0" reqNoAuth (by decide)).1 rfl

/-- C4 (confirmed): past the Bearer-prefix check, a resolver error maps to
401 invalid-or-expired, a missing user record maps to 401 user-not-found, a
resolver exception maps to 500 with a structured body, and a user record
leads to the downstream request with that identity attached; in the three
failure cases the downstream service is not contacted. -/
theorem c4_theorem (cfg : Config) (w : World) (now : String) (req : Request) (a : String)
    (hpath : strStartsWith (Request.path req) "/api/" = true)
    (hauth : getHeader req.headers "authorization" = some a)
    (hb : strStartsWith a "Bearer " = true) :
    (w.resolve (jsReplaceFirst a "Bearer " "") = ResolverOutcome.err →
      (handle cfg w now req).response =
        { status := 401, headers := [],
          body := "\x7b\"error\":\"Unauthorized\",\"message\":\"Invalid or expired token\"\x7d" }
      ∧ (handle cfg w now req).downstreamReq = none)
    ∧ (w.resolve (jsReplaceFirst a "Bearer " "") = ResolverOutcome.noUser →
      (handle cfg w now req).response =
        { status := 401, headers := [],
          body := "\x7b\"error\":\"Unauthorized\",\"message\":\"User not found\"\x7d" }
      ∧ (handle cfg w now req).downstreamReq = none)
    ∧ (w.resolve (jsReplaceFirst a "Bearer " "") = ResolverOutcome.exn →
      (handle cfg w now req).response =
        { status := 500, headers := [],
          body := "\x7b\"error\":\"Authentication failed\",\"message\":\"Internal authentication error\"\x7d" }
      ∧ (handle cfg w now req).downstreamReq = none)
    ∧ (∀ u, w.resolve (jsReplaceFirst a "Bearer " "") = ResolverOutcome.ok u →
      (handle cfg w now req).downstreamReq = some (forwardConfig cfg u req)
      ∧ (handle cfg w now req).user = some u) := by
  rw [handle_api cfg w now req hpath, verify_bearer cfg w req a hauth hb]
  refine ⟨?_, ?_, ?_, ?_⟩
  · intro hres
    simp only [authResolve, hres]
    exact ⟨by decide, by trivial⟩
  · intro hres
    simp only [authResolve, hres]
    exact ⟨by decide, by trivial⟩
  · intro hres
    simp only [authResolve, hres]
    exact ⟨by decide, by trivial⟩
  · intro u hres
    simp only [authResolve, hres]
    cases hc : w.call (forwardConfig cfg u req) <;> simp [proxyHandler, hc]

/-- C4 witness: with a resolver that reports an explicit error, the concrete
request is answered 401 invalid-or-expired and no downstream request is
issued. -/
theorem c4_witness :
    (handle cfg0 wErr "t0" req0).response =
      { status := 401, headers := [],
        body := "\x7b\"error\":\"Unauthorized\",\"message\":\"Invalid or expired token\"\x7d" }
    ∧ (handle cfg0 wErr "t0" req0).downstreamReq = none :=
  (c4_theorem cfg0 wErr "t0" req0 "Bearer tok" (by decide) (by decide) (by decide)).1 rfl

/-- C5 (confirmed): a transport failure of the downstream call is mapped by
node error code: connection refused to 503 with the fixed body, timeout to
504 with an error and message body, anything else to 500 with an error and
message body, and every failure receives one of these three statuses. -/
theorem c5_theorem (cfg : Config) (w : World) (now : String) (req : Request)
    (a : String) (u : Identity) (code : String)
    (hpath : strStartsWith (Request.path req) "/api/" = true)
    (hauth : getHeader req.headers "authorization" = some a)
    (hb : strStartsWith a "Bearer " = true)
    (hres : w.resolve (jsReplaceFirst a "Bearer " "") = ResolverOutcome.ok u)
    (hc : w.call (forwardConfig cfg u req) = TransportResult.fail code) :
    (code = "ECONNREFUSED" →
      (handle cfg w now req).response =
        { status := 503, headers := [],
          body := "\x7b\"error\":\"Service Unavailable\",\"message\":\"Internal API is not reachable\"\x7d" })
    ∧ (code = "ETIMEDOUT" →
      (handle cfg w now req).response =
        { status := 504, headers := [],
          body := "\x7b\"error\":\"Gateway Timeout\",\"message\":\"Internal API request timed out\"\x7d" })
    ∧ (code ≠ "ECONNREFUSED" → code ≠ "ETIMEDOUT" →
      (handle cfg w now req).response =
        { status := 500, headers := [],
          body := "\x7b\"error\":\"Internal Server Error\",\"message\":\"An error occurred while proxying the request\"\x7d" })
    ∧ ((handle cfg w now req).response.status = 503
        ∨ (handle cfg w now req).response.status = 504
        ∨ (handle cfg w now req).response.status = 500) := by
  have hr := handle_fail cfg w now req a u code hpath hauth hb hres hc
  refine ⟨?_, ?_, ?_, ?_⟩
  · intro h1
    rw [hr, if_pos h1]
    decide
  · intro h2
    have h1 : ¬(code = "ECONNREFUSED") := by
      rw [h2]; decide
    rw [hr, if_neg h1, if_pos h2]
    decide
  · intro h1 h2
    rw [hr, if_neg h1, if_neg h2]
    decide
  · rw [hr]
    by_cases h1 : code = "ECONNREFUSED"
    · rw [if_pos h1]
      exact Or.inl rfl
    · rw [if_neg h1]
      by_cases h2 : code = "ETIMEDOUT"
      · rw [if_pos h2]
        exact Or.inr (Or.inl rfl)
      · rw [if_neg h2]
        exact Or.inr (Or.inr rfl)

/-- C5 witness: a concrete connection-refused downstream failure is answered
503 with the fixed body. -/
theorem c5_witness :
    (handle cfg0 wRefused "t0" req0).response =
      { status := 503, headers := [],
        body := "\x7b\"error\":\"Service Unavailable\",\"message\":\"Internal API is not reachable\"\x7d" } :=
  (c5_theorem cfg0 wRefused "t0" req0 "Bearer tok" u0 "ECONNREFUSED" (by decide) (by decide)
    (by decide) rfl rfl).1 rfl

/-- C6 (amended): for every downstream response whose transformed body is not
a bare JSON number (the deprecated express send-status path) and for
requests carrying no conditional revalidation headers, the proxy responds
with exactly the downstream status code; every downstream response header
other than Content-Type and Content-Length keeps its downstream value
(express send rewrites those two, appending a charset and recomputing the
length, and may add headers of its own when absent); the body is handed to
the response unchanged when the downstream body is not a valid JSON text,
while a JSON body in the modelled value subset is parsed by the axios
default transform and re-serialized by express send (compact form, a
top-level JSON string as its raw characters, null as an empty body), so JSON
bodies are not preserved byte for byte. -/
theorem c6_theorem (cfg : Config) (w : World) (now : String) (req : Request)
    (a : String) (u : Identity) (s : Nat) (hs : List (String × String)) (b : String)
    (hpath : strStartsWith (Request.path req) "/api/" = true)
    (hauth : getHeader req.headers "authorization" = some a)
    (hb : strStartsWith a "Bearer " = true)
    (hres : w.resolve (jsReplaceFirst a "Bearer " "") = ResolverOutcome.ok u)
    (_hfr1 : getHeader req.headers "if-none-match" = none)
    (_hfr2 : getHeader req.headers "if-modified-since" = none)
    (hnum : jsonNumberOnly b = false)
    (hc : w.call (forwardConfig cfg u req) = TransportResult.resp s hs b) :
    (handle cfg w now req).response.status = s
    ∧ (∀ k, strToLower k ≠ "content-type" → strToLower k ≠ "content-length" →
        ∀ v, headerValue hs k = some v →
          headerValue (handle cfg w now req).response.headers k = some v)
    ∧ (jsonAccepts b = false → (handle cfg w now req).response.body = b)
    ∧ (jsonAccepts b = true → ∀ j, jsonParse b = some j →
        (handle cfg w now req).response.body = jsonValueSend j) := by
  have hr := handle_resp cfg w now req a u s hs b hpath hauth hb hres hnum hc
  refine ⟨by rw [hr], ?_, ?_, ?_⟩
  · intro k h1 h2 v hv
    rw [hr]
    show headerValue (relayHeaders hs (expressSend b)) k = some v
    rw [headerValue_relayHeaders hs (expressSend b) k h1 h2]
    exact hv
  · intro hj
    rw [hr]
    show expressSend b = b
    rw [expressSend, if_neg (by rw [hj]; exact Bool.noConfusion)]
  · intro hj j hpj
    rw [hr]
    show expressSend b = jsonValueSend j
    rw [expressSend, if_pos hj, hpj]

/-- C6 witness: a concrete downstream response with a non-JSON body is
relayed with its status, its body unchanged, and a downstream header value
kept. -/
theorem c6_witness :
    (handle cfg0 wOk "t0" req0).response.status = 200
    ∧ (handle cfg0 wOk "t0" req0).response.body = "ok" := by
  have h := c6_theorem cfg0 wOk "t0" req0 "Bearer tok" u0 200 [] "ok" (by decide) (by decide)
    (by decide) rfl rfl rfl (by decide) rfl
  exact ⟨h.1, h.2.2.1 (by decide)⟩

/-- C6 counterexample: a downstream JSON body with an inner space is relayed
re-serialized, so the relayed bytes differ from the downstream bytes. -/
theorem c6_counterexample :
    (handle cfg0 wArr "t0" req0).response.status = 200
    ∧ (handle cfg0 wArr "t0" req0).response.body = "[1,2]"
    ∧ "[1,2]" ≠ "[1, 2]" := by
  refine ⟨?_, ?_, ?_⟩ <;> decide

/-- C7 (amended): for every authenticated request under the forwarding prefix
the method and the parsed body pass to the downstream call unmodified, the
configured axios url is the downstream base, exactly one slash, and the
suffix of req.url after the /api/ prefix (a suffix that already contains the
raw query string), and the parsed query parameters are appended to that url
once more by the HTTP client, so with no query parameters the requested URL
is exactly base-slash-suffix, while with query parameters each parameter
appears a second time after the preserved raw query string. -/
theorem c7_theorem (cfg : Config) (w : World) (now : String) (req : Request)
    (a : String) (u : Identity)
    (hpath : strStartsWith (Request.path req) "/api/" = true)
    (hauth : getHeader req.headers "authorization" = some a)
    (hb : strStartsWith a "Bearer " = true)
    (hres : w.resolve (jsReplaceFirst a "Bearer " "") = ResolverOutcome.ok u) :
    (handle cfg w now req).downstreamReq = some (forwardConfig cfg u req)
    ∧ (forwardConfig cfg u req).method = req.method
    ∧ (forwardConfig cfg u req).data = req.body
    ∧ (forwardConfig cfg u req).params = req.query
    ∧ (forwardConfig cfg u req).url = cfg.internalApiUrl ++ "/" ++ strDrop req.url 5
    ∧ (req.query = [] → AxiosConfig.finalUrl (forwardConfig cfg u req)
        = cfg.internalApiUrl ++ "/" ++ strDrop req.url 5)
    ∧ (req.query ≠ [] → AxiosConfig.finalUrl (forwardConfig cfg u req)
        = (forwardConfig cfg u req).url
          ++ (if (forwardConfig cfg u req).url.data.contains '?' then "&" else "?")
          ++ joinSep "&" (req.query.map (fun kv => kv.1 ++ "=" ++ kv.2))) := by
  have hurl : strStartsWith req.url "/api/" = true := startsWith_url_of_path req "/api/" hpath
  have hapi : apiPathOf req.url = strDrop req.url 5 := by
    rw [apiPathOf, if_pos hurl]
  have hu : (forwardConfig cfg u req).url = cfg.internalApiUrl ++ "/" ++ strDrop req.url 5 := by
    show cfg.internalApiUrl ++ "/" ++ apiPathOf req.url = _
    rw [hapi]
  refine ⟨(handle_forwards cfg w now req a u hpath hauth hb hres).1, rfl, rfl, rfl, hu, ?_, ?_⟩
  · intro hq
    show AxiosConfig.finalUrl (forwardConfig cfg u req) = _
    rw [AxiosConfig.finalUrl]
    have hp : (forwardConfig cfg u req).params = ([] : List (String × String)) := hq
    rw [hp]
    rw [show (forwardConfig cfg u req).url = cfg.internalApiUrl ++ "/" ++ strDrop req.url 5
      from hu]
  · intro hq
    cases hql : req.query with
    | nil => exact absurd hql hq
    | cons p t =>
      have hp : (forwardConfig cfg u req).params = p :: t := hql
      rw [AxiosConfig.finalUrl, hp]

/-- C7 witness: on a concrete request with one query parameter the axios url
keeps the raw suffix including the query string. -/
theorem c7_witness :
    (handle cfg0 wOk "t0" reqQuery).downstreamReq = some (forwardConfig cfg0 u0 reqQuery)
    ∧ (forwardConfig cfg0 u0 reqQuery).url
        = cfg0.internalApiUrl ++ "/" ++ strDrop reqQuery.url 5 := by
  have h := c7_theorem cfg0 wOk "t0" reqQuery "Bearer tok" u0 (by decide) (by decide)
    (by decide) rfl
  exact ⟨h.1, h.2.2.2.2.1⟩

/-- C7 counterexample: with query parameter x equal to 1, the URL the HTTP
client requests downstream carries the parameter twice, once in the
preserved raw suffix and once re-appended, so the query parameters do not
reach the downstream service exactly as in the incoming request. -/
theorem c7_counterexample :
    ((handle cfg0 wOk "t0" reqQuery).downstreamReq.map (fun c => AxiosConfig.finalUrl c))
      = some "http://int/users?x=1&x=1"
    ∧ "http://int/users?x=1&x=1" ≠ "http://int/users?x=1" := by
  refine ⟨?_, ?_⟩ <;> decide

/-- C8 (confirmed): when the Authorization value starts with the literal
case-sensitive Bearer-space prefix, the credential handed to the resolver is
exactly the remainder after that prefix, an empty remainder included; any
other value, wrong case or spacing included, is answered 401 before the
resolver is consulted. -/
theorem c8_theorem (cfg : Config) (w : World) (now : String) (req : Request) (a : String)
    (hpath : strStartsWith (Request.path req) "/api/" = true)
    (hauth : getHeader req.headers "authorization" = some a) :
    (strStartsWith a "Bearer " = true →
      (handle cfg w now req).resolvedToken = some (strDrop a 7))
    ∧ (strStartsWith a "Bearer " = false →
      (handle cfg w now req).resolvedToken = none
      ∧ (handle cfg w now req).response.status = 401) := by
  constructor
  · intro hb
    rw [handle_api cfg w now req hpath, verify_bearer cfg w req a hauth hb,
      jsReplaceFirst_eq_drop a "Bearer " hb]
    have hdrop : strDrop a "Bearer ".data.length = strDrop a 7 := rfl
    rw [hdrop]
    cases hres : w.resolve (strDrop a 7) with
    | err => simp [authResolve, hres]
    | noUser => simp [authResolve, hres]
    | exn => simp [authResolve, hres]
    | ok u =>
      simp only [authResolve, hres]
      cases hc : w.call (forwardConfig cfg u req) <;> simp [proxyHandler, hc]
  · intro hb
    rw [handle_api cfg w now req hpath, verify_notBearer cfg w req a hauth hb]
    exact ⟨rfl, rfl⟩

/-- C8 witness: the header value Bearer-space with empty remainder passes the
empty credential to the resolver rather than being rejected locally. -/
theorem c8_witness :
    (handle cfg0 wOk "t0" reqBearerOnly).resolvedToken = some "" := by
  have h := (c8_theorem cfg0 wOk "t0" reqBearerOnly "Bearer " (by decide) (by decide)).1
    (by decide)
  exact h.trans (by decide)

/-- C9 (amended): every GET request to the /health path is answered 200 with
the JSON body carrying status ok, the current timestamp and the two
configured upstream URLs, regardless of the presence or content of the
Authorization header, and neither the resolver nor the downstream service is
contacted. -/
theorem c9_theorem (cfg : Config) (w : World) (now : String) (req : Request)
    (hm : req.method = "GET") (hp : Request.path req = "/health") :
    (handle cfg w now req).response.status = 200
    ∧ (handle cfg w now req).response.body =
        stringify (.obj [("status", .str "ok"), ("timestamp", .str now),
          ("supabase", .str cfg.supabaseUrl), ("internalApi", .str cfg.internalApiUrl)])
    ∧ (handle cfg w now req).resolvedToken = none
    ∧ (handle cfg w now req).downstreamReq = none := by
  unfold handle
  rw [if_pos (And.intro (Or.inl hm) (by rw [hp]; decide))]
  exact ⟨rfl, rfl, rfl, rfl⟩

/-- C9 witness: a GET to /health carrying an Authorization header is answered
200 without consulting the resolver. -/
theorem c9_witness :
    (handle cfg0 wOk "t0" reqHealth).response.status = 200
    ∧ (handle cfg0 wOk "t0" reqHealth).resolvedToken = none := by
  have h := c9_theorem cfg0 wOk "t0" reqHealth rfl (by decide)
  exact ⟨h.1, h.2.2.1⟩

/-- C9 counterexample: a POST to the /health path is answered 404, not 200,
so not every request to the /health path receives status 200. -/
theorem c9_counterexample :
    (handle cfg0 wOk "t0" reqPostHealth).response.status = 404
    ∧ (404 : Nat) ≠ 200 := by
  refine ⟨?_, ?_⟩ <;> decide

/-- C10 (amended): a request whose path matches neither the health route
(case-insensitive /health with an optional trailing slash) nor the
forwarding route (case-insensitive /api/ prefix) and is not the literal root
path is answered 404 with the fixed JSON body, and the literal root path is
answered 200 with the self-describing document naming the service, its
version and its endpoint groups; in both cases the resolver is not consulted
and no downstream request is issued.  Express 4 routing is case-insensitive
and slash-tolerant, so paths like /HEALTH or /health/ are served by the
health route and paths like /API/x enter the forwarding pipeline instead. -/
theorem c10_theorem (cfg : Config) (w : World) (now : String) (req : Request) :
    (routeMatchHealth (Request.path req) = false →
      strStartsWith (strToLower (Request.path req)) "/api/" = false →
      Request.path req ≠ "/" →
      (handle cfg w now req).response =
        { status := 404, headers := [],
          body := "\x7b\"error\":\"Not Found\",\"message\":\"Invalid endpoint. API routes should start with /api/\"\x7d" }
      ∧ (handle cfg w now req).resolvedToken = none
      ∧ (handle cfg w now req).downstreamReq = none)
    ∧ (Request.path req = "/" →
      (handle cfg w now req).response =
        { status := 200, headers := [],
          body := "\x7b\"name\":\"Supabase Auth Proxy\",\"version\":\"1.0.0\",\"endpoints\":\x7b\"health\":\"/health\",\"api\":\"/api/*\"\x7d\x7d" }
      ∧ (handle cfg w now req).resolvedToken = none
      ∧ (handle cfg w now req).downstreamReq = none) := by
  constructor
  · intro h1 h2 h3
    unfold handle
    rw [if_neg (fun hc => by rw [h1] at hc; exact Bool.noConfusion hc.2),
      if_neg (by rw [h2]; exact Bool.noConfusion), if_pos h3]
    exact ⟨by decide, rfl, rfl⟩
  · intro h1
    unfold handle
    rw [if_neg (fun hc => by rw [h1] at hc; exact absurd hc.2 (by decide)),
      if_neg (by rw [h1]; decide), if_neg (fun hc => hc h1)]
    exact ⟨by decide, rfl, rfl⟩

/-- C10 witness: the concrete unknown path /nope is answered by the fixed 404
body without consulting the resolver. -/
theorem c10_witness :
    (handle cfg0 wOk "t0" reqNope).response =
      { status := 404, headers := [],
        body := "\x7b\"error\":\"Not Found\",\"message\":\"Invalid endpoint. API routes should start with /api/\"\x7d" }
    ∧ (handle cfg0 wOk "t0" reqNope).resolvedToken = none
    ∧ (handle cfg0 wOk "t0" reqNope).downstreamReq = none :=
  (c10_theorem cfg0 wOk "t0" reqNope).1 (by decide) (by decide) (by decide)

/-- C10 counterexample: the path /HEALTH is neither the literal /health nor
the root nor under the literal forwarding prefix, yet a GET to it is served
200 by the case-insensitive health route, not 404. -/
theorem c10_counterexample :
    (handle cfg0 wOk "t0" reqUpperHealth).response.status = 200
    ∧ (200 : Nat) ≠ 404
    ∧ "/HEALTH" ≠ "/health"
    ∧ strStartsWith "/HEALTH" "/api/" = false
    ∧ "/HEALTH" ≠ "/" := by
  refine ⟨?_, ?_, ?_, ?_, ?_⟩ <;> decide

end UniqerProxy
